import Mathlib

/-!
Verification development for the Math-AI web application (a chat-style math
solver: React frontend, Flask backend delegating to a symbolic math library,
document-store persistence).  The frontend service layer and chat component
are embedded from the JavaScript sources; the backend components are
modelled from the specification, since only their documentation ships with
the repository.
-/

namespace MathAI

/-! ### JavaScript string primitives (shallow embedding) -/

/-- Embedding of JS `String.prototype.startsWith`, on the character data. -/
def jsStartsWith (s pat : String) : Bool :=
  pat.data.isPrefixOf s.data

/-- Embedding of JS `String.prototype.endsWith`, on the character data. -/
def jsEndsWith (s pat : String) : Bool :=
  pat.data.isSuffixOf s.data

/-- Embedding of JS `String.prototype.includes`: substring containment. -/
def jsIncludes (s pat : String) : Bool :=
  decide (pat.data <:+: s.data)

/-- Embedding of JS `String.prototype.trim`: strip leading and trailing
whitespace characters. -/
def jsTrim (s : String) : String :=
  ⟨((s.data.dropWhile Char.isWhitespace).reverse.dropWhile Char.isWhitespace).reverse⟩

/-- Number of positions at which `pat` occurs as a contiguous substring of
`s` (counting overlapping occurrences). -/
def occurrences (pat s : List Char) : Nat :=
  (List.range (s.length + 1)).countP (fun i => pat.isPrefixOf (s.drop i))

/-! ### Frontend service layer (`services/api.js`) -/

/-- `getGraphUrl` from `services/api.js`: `null` for a falsy filename;
otherwise the filename is prefixed with `/api/graph/` unless it already
starts with that segment, and in dev mode the localhost backend host is
prepended. -/
def getGraphUrl (dev : Bool) (filename : String) : Option String :=
  if filename = "" then none
  else if jsStartsWith filename "/api/graph/" then
    some (if dev then "http://localhost:5000" ++ filename else filename)
  else
    some (if dev then "http://localhost:5000/api/graph/" ++ filename
          else "/api/graph/" ++ filename)

/-- The characters JS `encodeURIComponent` leaves unescaped besides
letters and digits. -/
def uriMarks : List Char :=
  ['-', '_', '.', '!', '~', '*', Char.ofNat 39, '(', ')']

/-- Whether `encodeURIComponent` leaves the character as-is. -/
def isUriUnescaped (c : Char) : Bool :=
  c.isAlpha || c.isDigit || uriMarks.contains c

/-- The UTF-8 bytes of a character, as numbers below 256. -/
def utf8Bytes (c : Char) : List Nat :=
  let n := c.toNat
  if n < 128 then [n]
  else if n < 2048 then [192 + n / 64, 128 + n % 64]
  else if n < 65536 then [224 + n / 4096, 128 + (n / 64) % 64, 128 + n % 64]
  else [240 + n / 262144, 128 + (n / 4096) % 64, 128 + (n / 64) % 64, 128 + n % 64]

/-- Upper-case hexadecimal digit for a number below 16. -/
def hexDigitChar (n : Nat) : Char :=
  if n < 10 then Char.ofNat (48 + n) else Char.ofNat (55 + n)

/-- Percent-escape of a single byte, e.g. `%2B`. -/
def pctByte (b : Nat) : List Char :=
  [Char.ofNat 37, hexDigitChar (b / 16), hexDigitChar (b % 16)]

/-- Embedding of JS `encodeURIComponent`: unescaped characters are kept,
every other character is replaced by the percent-escapes of its UTF-8
bytes. -/
def encodeURIComponent (s : String) : String :=
  ⟨(s.data.map (fun c =>
      if isUriUnescaped c then [c] else (utf8Bytes c).map pctByte |>.flatten)).flatten⟩

/-- `generateGraph` from `services/api.js`: builds the graph request URL.
The JS default parameters `xmin = -10`, `xmax = 10` are modelled by
optional arguments read off with those defaults; the template literal is
the concatenation below, with the expression URI-encoded. -/
def generateGraph (dev : Bool) (expr : String) (xmin xmax : Option Int) : String :=
  let xm := xmin.getD (-10)
  let xM := xmax.getD 10
  if dev then
    "http://localhost:5000/api/graph?expr=" ++
      (encodeURIComponent expr ++ ("&xmin=" ++ (toString xm ++ ("&xmax=" ++ toString xM))))
  else
    "/api/graph?expr=" ++
      (encodeURIComponent expr ++ ("&xmin=" ++ (toString xm ++ ("&xmax=" ++ toString xM))))

/-! ### Frontend chat component (`App.jsx`) -/

/-- Role of a chat message. -/
inductive ChatRole where
  | user
  | assistant
deriving DecidableEq

/-- Content of a chat message: the user's text, a successful solve
response payload, or the error object `\x7b error: ... \x7d` built in the
catch branch. -/
inductive MsgContent (α : Type) where
  | text (s : String)
  | result (r : α)
  | errObj (msg : String)
deriving DecidableEq

/-- A chat message as built by `handleSend`. -/
structure ChatMsg (α : Type) where
  role : ChatRole
  content : MsgContent α
  timestamp : String
deriving DecidableEq

/-- The React state `handleSend` touches: message list, input box,
loading flag. -/
structure ChatState (α : Type) where
  messages : List (ChatMsg α)
  input : String
  loading : Bool
deriving DecidableEq

/-- JS `a || b` for an optional string `a` (absent and empty are falsy). -/
def jsOrDefault (v : Option String) (d : String) : String :=
  match v with
  | some s => if s = "" then d else s
  | none => d

/-- `handleSend` from `App.jsx`, as a state transformer.  `resp` is the
outcome of the awaited `solveProblem` call (`Except.error` carries
`err.response?.data?.error`); `t1`, `t2` are the two timestamps taken.
The second component counts the `solveProblem` requests issued. -/
def handleSend {α : Type} (st : ChatState α) (resp : Except (Option String) α)
    (t1 t2 : String) : ChatState α × Nat :=
  if jsTrim st.input = "" then (st, 0)
  else
    let userMessage : ChatMsg α := ⟨.user, .text st.input, t1⟩
    let aiMessage : ChatMsg α :=
      match resp with
      | .ok result => ⟨.assistant, .result result, t2⟩
      | .error e => ⟨.assistant, .errObj (jsOrDefault e "An error occurred. Please try again."), t2⟩
    ({ messages := st.messages ++ [userMessage, aiMessage], input := "", loading := false }, 1)

/-! ### Spec-modelled backend

The Flask backend (classifier, solver adapter, graph renderer, persistence
adapter, HTTP routes) is documented by the repository but its Python
sources are not shipped under `src/`; the definitions below are modelled
from the specification's component contracts. -/

/-- Modelled from the spec: the closed category set of the expression
classifier. -/
inductive Category where
  | derivative
  | integral
  | limit
  | algebra
  | arithmetic
  | graph
deriving DecidableEq

/-- Modelled from the spec: the expression classifier (backend source is
not under `src/`).  First-match precedence: explicit operation keyword
("derivative of", "integral of", "limit") > presence of "=" (algebra) >
default (arithmetic evaluation). -/
def classify (input : String) : Category :=
  if jsIncludes input "derivative of" then .derivative
  else if jsIncludes input "integral of" then .integral
  else if jsIncludes input "limit" then .limit
  else if jsIncludes input "=" then .algebra
  else .arithmetic

/-- Whether the input mentions one of the explicit calculus operation
keywords of the classifier. -/
def hasCalcKeyword (input : String) : Bool :=
  jsIncludes input "derivative of" || jsIncludes input "integral of" ||
    jsIncludes input "limit"

/-- A rational polynomial by its coefficient list, constant term first. -/
abbrev QPoly := List ℚ

/-- Horner evaluation of a coefficient list. -/
def evalPoly (p : QPoly) (x : ℚ) : ℚ :=
  p.foldr (fun a acc => a + x * acc) 0

/-- Coefficient-wise sum of two polynomials. -/
def polyAdd : QPoly → QPoly → QPoly
  | [], q => q
  | p, [] => p
  | a :: p, b :: q => (a + b) :: polyAdd p q

/-- Coefficient-wise negation. -/
def polyNeg (p : QPoly) : QPoly := p.map (fun a => -a)

/-- `lhs − rhs`: the polynomial of the implied equation `lhs − rhs = 0`. -/
def polySub (p q : QPoly) : QPoly := polyAdd p (polyNeg q)

/-- Degree of a coefficient list: index of its last nonzero coefficient. -/
def polyDegree (p : QPoly) : Nat :=
  (p.reverse.dropWhile (fun a => a == 0)).length - 1

/-- Modelled from the spec: the third-party computer-algebra `solve`
primitive the algebra branch delegates to (an external collaborator, not
reimplemented).  Its contract: every root it returns is a root of the
given polynomial. -/
structure CASLib where
  solve : QPoly → List ℚ
  solve_sound : ∀ p r, r ∈ solve p → evalPoly p r = 0

/-- One solution step, by its fixed prose template, with payload. -/
inductive Step where
  | restate (text : String)
  | equationKind (degree : Nat)
  | listRoots (roots : List ℚ)
  | verifyRoot (root : ℚ)
  | applyRule (rule : String)
  | evaluate
deriving DecidableEq

/-- Whether a step is the "restate the input" step. -/
def Step.isRestate : Step → Bool
  | .restate _ => true
  | _ => false

/-- Modelled from the spec: a Solution Result.  The final answer and the
step sequence are optional fields mirroring the JSON shape, so their
presence is provable rather than built in. -/
structure SolutionResult where
  solution : Option String
  steps : Option (List Step)
  graph_url : Option String
deriving DecidableEq

/-- Rendering of a rational number into answer text. -/
def renderQ (q : ℚ) : String := toString q

/-- Rendering of a root list into answer text. -/
def renderRoots (roots : List ℚ) : String := toString (roots.map renderQ)

/-- Rendering of the restated equation. -/
def renderEq (lhs rhs : QPoly) : String := toString lhs ++ " = " ++ toString rhs

/-- Modelled from the spec: the algebra branch — parse both sides of the
equality, request symbolic roots of the implied equation, verify each root;
steps: restate equation, state degree, list roots, verification per root;
empty root set reported as a normal result (NoSolutionKind). -/
def algebraResult (lib : CASLib) (lhs rhs : QPoly) : SolutionResult :=
  if lib.solve (polySub lhs rhs) = [] then
    { solution := some "No real solution"
      steps := some [.restate (renderEq lhs rhs),
                     .equationKind (polyDegree (polySub lhs rhs))]
      graph_url := none }
  else
    { solution := some (renderRoots (lib.solve (polySub lhs rhs)))
      steps := some ([.restate (renderEq lhs rhs),
                      .equationKind (polyDegree (polySub lhs rhs)),
                      .listRoots (lib.solve (polySub lhs rhs))] ++
                     (lib.solve (polySub lhs rhs)).map Step.verifyRoot)
      graph_url := none }

/-- The three calculus operations of the solver adapter. -/
inductive CalcOp where
  | derivative
  | integral
  | limitOp
deriving DecidableEq

/-- Fixed rule name used in the calculus narrative (a lookup, not a
derivation). -/
def ruleName : CalcOp → String
  | .derivative => "power rule"
  | .integral => "reverse power rule"
  | .limitOp => "direct substitution"

/-- Modelled from the spec: derivative/integral/limit branch — invoke the
symbolic operation (its output text abstracted as `opResult`) and emit a
fixed narrative naming the applicable rule. -/
def calculusResult (op : CalcOp) (expr : String) (opResult : String) : SolutionResult :=
  { solution := some opResult
    steps := some [.restate expr, .applyRule (ruleName op)]
    graph_url := none }

/-- Modelled from the spec: arithmetic/percentage branch — directly
evaluate the numeric expression. -/
def arithmeticResult (expr : String) (value : ℚ) : SolutionResult :=
  { solution := some (renderQ value)
    steps := some [.restate expr, .evaluate]
    graph_url := none }

/-- Modelled from the spec: the fallback case — an empty step sequence but
a present final answer. -/
def fallbackResult (answer : String) : SolutionResult :=
  { solution := some answer, steps := none, graph_url := none }

/-- The Solution Result invariant of the data-model section: a present step
sequence is non-empty and headed by the restate step; the final answer is
always present. -/
def resultInvariant (r : SolutionResult) : Prop :=
  (∀ l, r.steps = some l → l ≠ [] ∧ ∃ s, l.head? = some s ∧ s.isRestate = true) ∧
  r.solution.isSome = true

/-- A stored problem record: raw input, detected category, timestamp. -/
structure ProblemRecord where
  input : String
  category : Category
  timestamp : Nat
deriving DecidableEq

/-- Body of the solve endpoint's HTTP response. -/
inductive SolveBody where
  | success (r : SolutionResult)
  | failure (msg : String)
deriving DecidableEq

/-- An HTTP response of the solve route. -/
structure HttpResponse where
  status : Nat
  body : SolveBody
deriving DecidableEq

/-- Modelled from the spec: best-effort append.  Returns the resulting
store and whether a StorageUnavailable failure was swallowed (`true` when
storage was unreachable; the failure is logged, never surfaced). -/
def appendRecord (storageUp : Bool) (store : List ProblemRecord)
    (r : ProblemRecord) : List ProblemRecord × Bool :=
  if storageUp then (store ++ [r], false) else (store, true)

/-- Modelled from the spec: the solve route — compute the solution, then
fire-and-forget persistence of the problem record; the response is built
from the solution alone. -/
def apiSolve (storageUp : Bool) (store : List ProblemRecord) (input : String)
    (result : SolutionResult) (ts : Nat) : HttpResponse × List ProblemRecord :=
  let response : HttpResponse := { status := 200, body := .success result }
  let stored := (appendRecord storageUp store ⟨input, classify input, ts⟩).1
  (response, stored)

/-- The graph renderer's error taxonomy. -/
inductive RenderError where
  | noPlottablePoints
deriving DecidableEq

/-- Modelled from the spec: the fixed sampling resolution of the graph
renderer. -/
def resolutionN : Nat := 100

/-- The sample abscissas across `[xmin, xmax]`. -/
def sampleXs (xmin xmax : ℚ) : List ℚ :=
  (List.range resolutionN).map
    (fun i => xmin + (xmax - xmin) * i / (resolutionN - 1))

/-- The sample points whose evaluation succeeds (failing samples are
discarded). -/
def validPoints (f : ℚ → Option ℚ) (xmin xmax : ℚ) : List (ℚ × ℚ) :=
  (sampleXs xmin xmax).filterMap (fun x => (f x).map (fun y => (x, y)))

/-- A rendered graph: the plotted points and the served file path. -/
structure GraphResult where
  points : List (ℚ × ℚ)
  filePath : String
deriving DecidableEq

/-- Modelled from the spec: the graph renderer — sample the function,
discard failing samples, render the remaining points to a file; fail with
RenderError when no valid sample point exists. -/
def renderGraph (f : ℚ → Option ℚ) (xmin xmax : ℚ) (fileId : String) :
    Except RenderError GraphResult :=
  let pts := validPoints f xmin xmax
  if pts = [] then .error .noPlottablePoints
  else .ok { points := pts, filePath := "graphs/" ++ fileId ++ ".png" }

/-- Body of the read-side endpoints, distinguishing a null body, an error
body, record lists and aggregates. -/
inductive ApiData where
  | nullData
  | errorMsg (msg : String)
  | records (l : List ProblemRecord)
  | counts (total : Nat) (perCategory : List (Category × Nat))
deriving DecidableEq

/-- Modelled from the spec: `read(limit)` — the most recent stored records,
an empty result being valid. -/
def readRecords (store : List ProblemRecord) (limit : Nat) : List ProblemRecord :=
  store.reverse.take limit

/-- The closed category list, for aggregation. -/
def allCategories : List Category :=
  [.derivative, .integral, .limit, .algebra, .arithmetic, .graph]

/-- Modelled from the spec: `aggregate()` — total count and counts per
category, computed on demand from the stored records. -/
def aggregate (store : List ProblemRecord) : Nat × List (Category × Nat) :=
  (store.length,
   allCategories.map (fun c => (c, store.countP (fun r => r.category == c))))

/-- An HTTP response of the read-side routes. -/
structure ReadResponse where
  status : Nat
  data : ApiData
deriving DecidableEq

/-- Modelled from the spec: the history route — returns whatever is stored,
never an error for an empty store. -/
def apiHistory (store : List ProblemRecord) (limit : Nat) : ReadResponse :=
  { status := 200, data := .records (readRecords store limit) }

/-- Modelled from the spec: the analytics route. -/
def apiAnalytics (store : List ProblemRecord) : ReadResponse :=
  { status := 200, data := .counts (aggregate store).1 (aggregate store).2 }

/-- Modelled from the spec: the solver adapter's computation over the
provided text alone (classification plus the narrative skeleton of the
matching category). -/
def adapterCore (input : String) : Category × List Step :=
  match classify input with
  | .derivative => (.derivative, [.restate input, .applyRule (ruleName .derivative)])
  | .integral => (.integral, [.restate input, .applyRule (ruleName .integral)])
  | .limit => (.limit, [.restate input, .applyRule (ruleName .limitOp)])
  | c => (c, [.restate input, .evaluate])

/-- Modelled from the spec: one invocation of the solver adapter in the
context of the persistence store, which is threaded through explicitly so
that (non-)interference with storage can be stated. -/
def runAdapter (store : List ProblemRecord) (input : String) :
    (Category × List Step) × List ProblemRecord :=
  (adapterCore input, store)

/-- A concrete instance of the CAS contract, solving `x² − 4 = 0` and
giving up elsewhere; used to instantiate statements about the algebra
branch. -/
def demoLib : CASLib where
  solve p := if p = [-4, 0, 1] then [2, -2] else []
  solve_sound := by
    intro p r hr
    by_cases hp : p = [-4, 0, 1]
    · subst hp
      simp at hr
      rcases hr with h | h <;> subst h <;> norm_num [evalPoly]
    · simp [hp] at hr

/-- An evaluation that fails on every sample (e.g. an everywhere-undefined
expression). -/
def failEval : ℚ → Option ℚ := fun _ => none

/-- The identity function as an everywhere-defined evaluation. -/
def okEval : ℚ → Option ℚ := fun x => some x

/-! ### Helper lemmas -/

theorem evalPoly_nil (x : ℚ) : evalPoly [] x = 0 := rfl

theorem evalPoly_cons (a : ℚ) (p : QPoly) (x : ℚ) :
    evalPoly (a :: p) x = a + x * evalPoly p x := rfl

theorem evalPoly_polyAdd (p q : QPoly) (x : ℚ) :
    evalPoly (polyAdd p q) x = evalPoly p x + evalPoly q x := by
  induction p generalizing q with
  | nil => simp [polyAdd, evalPoly_nil]
  | cons a p ih =>
    cases q with
    | nil => simp [polyAdd, evalPoly_nil]
    | cons b q =>
      simp only [polyAdd, evalPoly_cons, ih]
      ring

theorem evalPoly_polyNeg (p : QPoly) (x : ℚ) :
    evalPoly (polyNeg p) x = -evalPoly p x := by
  induction p with
  | nil => simp [polyNeg, evalPoly_nil]
  | cons a p ih =>
    simp only [polyNeg, List.map_cons, evalPoly_cons] at *
    rw [ih]
    ring

theorem evalPoly_polySub (p q : QPoly) (x : ℚ) :
    evalPoly (polySub p q) x = evalPoly p x - evalPoly q x := by
  rw [polySub, evalPoly_polyAdd, evalPoly_polyNeg]
  ring

theorem occurrences_pos (pat t u : List Char) :
    1 ≤ occurrences pat (t ++ (pat ++ u)) := by
  have hp : pat.isPrefixOf ((t ++ (pat ++ u)).drop t.length) = true := by
    rw [List.drop_left]
    exact List.isPrefixOf_iff_prefix.mpr ⟨u, rfl⟩
  have hmem : t.length ∈ List.range ((t ++ (pat ++ u)).length + 1) := by
    simp only [List.mem_range, List.length_append]
    omega
  have hpos :
      0 < (List.range ((t ++ (pat ++ u)).length + 1)).countP
        (fun i => pat.isPrefixOf ((t ++ (pat ++ u)).drop i)) :=
    List.countP_pos_iff.mpr ⟨t.length, hmem, hp⟩
  unfold occurrences
  omega

theorem jsEndsWith_append (pre s : String) : jsEndsWith (pre ++ s) s = true := by
  unfold jsEndsWith
  exact List.isSuffixOf_iff_suffix.mpr ⟨pre.data, (String.data_append pre s).symm⟩

theorem jsEndsWith_refl (s : String) : jsEndsWith s s = true := by
  unfold jsEndsWith
  exact List.isSuffixOf_iff_suffix.mpr (List.suffix_refl s.data)

/-! ### Claims -/

/-- C1: the classifier chooses a label by first-match precedence — an
explicit calculus operation keyword beats the "=" check, which beats the
arithmetic default; so any input containing "=" with no calculus keyword
is algebra, and any input with neither is arithmetic. -/
theorem classify_first_match (s : String) :
    (hasCalcKeyword s = true →
      classify s = .derivative ∨ classify s = .integral ∨ classify s = .limit) ∧
    (hasCalcKeyword s = false → jsIncludes s "=" = true → classify s = .algebra) ∧
    (hasCalcKeyword s = false → jsIncludes s "=" = false → classify s = .arithmetic) := by
  refine ⟨?_, ?_, ?_⟩
  · intro h
    by_cases h1 : jsIncludes s "derivative of"
    · left; simp [classify, h1]
    · by_cases h2 : jsIncludes s "integral of"
      · right; left; simp [classify, h1, h2]
      · have h3 : jsIncludes s "limit" = true := by
          simp only [hasCalcKeyword, h1, h2, Bool.false_or] at h
          exact h
        right; right; simp [classify, h1, h2, h3]
  · intro h hEq
    simp only [hasCalcKeyword, Bool.or_eq_false_iff] at h
    simp [classify, h.1.1, h.1.2, h.2, hEq]
  · intro h hEq
    simp only [hasCalcKeyword, Bool.or_eq_false_iff] at h
    simp [classify, h.1.1, h.1.2, h.2, hEq]

/-- Witness for C1 at concrete inputs. -/
theorem classify_first_match_witness :
    classify "x + 1 = 2" = .algebra ∧ classify "2 + 2" = .arithmetic :=
  ⟨(classify_first_match "x + 1 = 2").2.1 (by decide) (by decide),
   (classify_first_match "2 + 2").2.2 (by decide) (by decide)⟩

/-- C3: a failure of the persistence append (storage unreachable) does not
change the solve response — the caller receives the same successful
response, with status 200 and the solution in the body, and no storage
error appears in body or status. -/
theorem solve_response_storage_independent (store : List ProblemRecord)
    (input : String) (result : SolutionResult) (ts : Nat) :
    (apiSolve false store input result ts).1 = (apiSolve true store input result ts).1 ∧
    (apiSolve false store input result ts).1.status = 200 ∧
    (apiSolve false store input result ts).1.body = .success result :=
  ⟨rfl, rfl, rfl⟩

/-- C4: every constructed Solution Result satisfies the invariant — a
present step sequence is non-empty and headed by the restate step, and the
final answer field is present even when the step sequence is absent
(fallback). -/
theorem result_invariant_all :
    (∀ lib lhs rhs, resultInvariant (algebraResult lib lhs rhs)) ∧
    (∀ op expr opResult, resultInvariant (calculusResult op expr opResult)) ∧
    (∀ expr value, resultInvariant (arithmeticResult expr value)) ∧
    (∀ answer, resultInvariant (fallbackResult answer)) := by
  refine ⟨?_, ?_, ?_, ?_⟩
  · intro lib lhs rhs
    unfold resultInvariant algebraResult
    by_cases h : lib.solve (polySub lhs rhs) = [] <;>
      simp [h, Step.isRestate]
  · intro op expr opResult
    unfold resultInvariant calculusResult
    simp [Step.isRestate]
  · intro expr value
    unfold resultInvariant arithmeticResult
    simp [Step.isRestate]
  · intro answer
    unfold resultInvariant fallbackResult
    simp

/-- Witness for C4 at concrete results. -/
theorem result_invariant_all_witness :
    resultInvariant (fallbackResult "4") ∧
    resultInvariant (arithmeticResult "2 + 2" 4) :=
  ⟨result_invariant_all.2.2.2 "4", result_invariant_all.2.2.1 "2 + 2" 4⟩

/-- C5: the graph renderer discards failing samples and renders the rest;
it fails with RenderError (surfaced as an error) exactly when no valid
sample point exists across the domain. -/
theorem renderGraph_error_iff (f : ℚ → Option ℚ) (xmin xmax : ℚ) (fileId : String) :
    ((∃ e, renderGraph f xmin xmax fileId = .error e) ↔ validPoints f xmin xmax = []) ∧
    (validPoints f xmin xmax ≠ [] →
      renderGraph f xmin xmax fileId =
        .ok ⟨validPoints f xmin xmax, "graphs/" ++ fileId ++ ".png"⟩) := by
  by_cases h : validPoints f xmin xmax = []
  · refine ⟨⟨fun _ => h, fun _ => ⟨.noPlottablePoints, ?_⟩⟩, fun hne => absurd h hne⟩
    unfold renderGraph
    simp [h]
  · refine ⟨⟨fun he => ?_, fun he => absurd he h⟩, fun _ => ?_⟩
    · obtain ⟨e, he⟩ := he
      unfold renderGraph at he
      simp [h] at he
    · unfold renderGraph
      simp [h]

/-- Witness for C5: an everywhere-failing evaluation yields RenderError,
an everywhere-defined one renders the valid points. -/
theorem renderGraph_error_iff_witness :
    renderGraph failEval 0 99 "g" = .error .noPlottablePoints ∧
    renderGraph okEval 0 99 "g" =
      .ok ⟨validPoints okEval 0 99, "graphs/" ++ "g" ++ ".png"⟩ := by
  constructor
  · obtain ⟨e, he⟩ := (renderGraph_error_iff failEval 0 99 "g").1.mpr (by decide)
    cases e
    exact he
  · exact (renderGraph_error_iff okEval 0 99 "g").2 (by decide)

/-- C6: the read side returns whatever is stored and never signals an
error — history and analytics respond with status 200 and a records or
counts body for every store, and the history of an empty store is the
empty sequence, not null and not an error. -/
theorem read_side_never_errors (store : List ProblemRecord) (limit : Nat) :
    (apiHistory store limit).status = 200 ∧
    (∃ l, (apiHistory store limit).data = .records l) ∧
    (apiHistory [] limit).data = .records [] ∧
    (apiAnalytics store).status = 200 ∧
    (∃ t pc, (apiAnalytics store).data = .counts t pc) := by
  refine ⟨rfl, ⟨_, rfl⟩, ?_, rfl, ⟨_, _, rfl⟩⟩
  simp [apiHistory, readRecords]

/-- C8: the solver adapter is a pure function of the input text — its
result does not depend on the persistence store, two invocations on the
same text agree, and the store is left untouched. -/
theorem adapter_pure_no_storage (s1 s2 : List ProblemRecord) (input : String) :
    (runAdapter s1 input).1 = (runAdapter s2 input).1 ∧
    (runAdapter s1 input).2 = s1 :=
  ⟨rfl, rfl⟩

/-- C2: for a polynomial equality whose implied equation the symbolic
library solves with at least one root, every returned root satisfies the
original equation on substitution, and the emitted step list carries a
verification step per root. -/
theorem algebra_roots_verified (lib : CASLib) (lhs rhs : QPoly)
    (hne : lib.solve (polySub lhs rhs) ≠ []) :
    ∃ l, (algebraResult lib lhs rhs).steps = some l ∧
      ∀ r ∈ lib.solve (polySub lhs rhs),
        evalPoly lhs r = evalPoly rhs r ∧ Step.verifyRoot r ∈ l := by
  unfold algebraResult
  rw [if_neg hne]
  refine ⟨_, rfl, ?_⟩
  intro r hr
  constructor
  · have h0 := lib.solve_sound _ r hr
    rw [evalPoly_polySub] at h0
    linarith
  · exact List.mem_append.mpr (Or.inr (List.mem_map.mpr ⟨r, hr, rfl⟩))

/-- Witness for C2: the equation `x² = 4` solved through the concrete CAS
instance. -/
theorem algebra_roots_verified_witness :
    ∃ l, (algebraResult demoLib [0, 0, 1] [4]).steps = some l ∧
      ∀ r ∈ demoLib.solve (polySub [0, 0, 1] [4]),
        evalPoly [0, 0, 1] r = evalPoly [4] r ∧ Step.verifyRoot r ∈ l :=
  algebra_roots_verified demoLib [0, 0, 1] [4] (by
    have hsub : polySub [0, 0, 1] [4] = [-4, 0, 1] := by
      norm_num [polySub, polyAdd, polyNeg]
    rw [hsub]
    simp [demoLib])

/-- C7: when the numeric domain is not supplied, `generateGraph` uses the
defaults `xmin = -10`, `xmax = 10`, and builds the request URL with the
expression URI-encoded as the `expr` query parameter. -/
theorem generateGraph_default_domain (dev : Bool) (expr : String) :
    generateGraph dev expr none none = generateGraph dev expr (some (-10)) (some 10) ∧
    generateGraph dev expr none none =
      (if dev then "http://localhost:5000" else "") ++
        ("/api/graph?expr=" ++ (encodeURIComponent expr ++ "&xmin=-10&xmax=10")) := by
  refine ⟨rfl, ?_⟩
  have htail : ("&xmin=" ++ (toString ((none : Option Int).getD (-10)) ++
      ("&xmax=" ++ toString ((none : Option Int).getD 10))) : String) = "&xmin=-10&xmax=10" := rfl
  cases dev
  · exact congrArg (fun z => "/api/graph?expr=" ++ (encodeURIComponent expr ++ z)) htail
  · exact congrArg
      (fun z => "http://localhost:5000/api/graph?expr=" ++ (encodeURIComponent expr ++ z)) htail

/-- C9 (amended): `getGraphUrl` returns `null` exactly for a falsy
filename; otherwise it returns a URL ending with the filename that
contains the `/api/graph/` segment at least once, and a filename already
starting with `/api/graph/` is not prefixed again (the URL is the filename
itself, with the localhost host prepended in dev mode). -/
theorem getGraphUrl_spec (dev : Bool) (filename : String) :
    (filename = "" → getGraphUrl dev filename = none) ∧
    (filename ≠ "" → ∃ url,
      getGraphUrl dev filename = some url ∧
      jsEndsWith url filename = true ∧
      1 ≤ occurrences "/api/graph/".data url.data ∧
      (jsStartsWith filename "/api/graph/" = true →
        url = if dev then "http://localhost:5000" ++ filename else filename)) := by
  constructor
  · intro h
    unfold getGraphUrl
    rw [if_pos h]
  · intro h
    by_cases hs : jsStartsWith filename "/api/graph/"
    · obtain ⟨t, ht⟩ : ("/api/graph/" : String).data <+: filename.data :=
        List.isPrefixOf_iff_prefix.mp hs
      refine ⟨if dev then "http://localhost:5000" ++ filename else filename,
              ?_, ?_, ?_, fun _ => rfl⟩
      · unfold getGraphUrl
        rw [if_neg h, if_pos hs]
      · cases dev
        · simpa using jsEndsWith_refl filename
        · simpa using jsEndsWith_append "http://localhost:5000" filename
      · cases dev
        · simp only [Bool.false_eq_true, if_false]
          rw [show filename.data = [] ++ (("/api/graph/" : String).data ++ t) by
                simp [ht]]
          exact occurrences_pos _ _ _
        · simp only [if_true, String.data_append]
          rw [show filename.data = ("/api/graph/" : String).data ++ t from ht.symm]
          exact occurrences_pos _ _ _
    · refine ⟨if dev then "http://localhost:5000/api/graph/" ++ filename
              else "/api/graph/" ++ filename,
              ?_, ?_, ?_, fun hcon => absurd hcon hs⟩
      · unfold getGraphUrl
        rw [if_neg h, if_neg hs]
      · cases dev
        · simpa using jsEndsWith_append "/api/graph/" filename
        · simpa using jsEndsWith_append "http://localhost:5000/api/graph/" filename
      · cases dev
        · simp only [Bool.false_eq_true, if_false, String.data_append]
          rw [show ("/api/graph/" : String).data ++ filename.data
                = [] ++ (("/api/graph/" : String).data ++ filename.data) from rfl]
          exact occurrences_pos _ _ _
        · simp only [if_true]
          rw [show ("http://localhost:5000/api/graph/" ++ filename : String).data
                = ("http://localhost:5000" : String).data ++
                  (("/api/graph/" : String).data ++ filename.data) from rfl]
          exact occurrences_pos _ _ _

/-- Witness for C9 at concrete filenames. -/
theorem getGraphUrl_spec_witness :
    getGraphUrl true "" = none ∧
    (∃ url, getGraphUrl false "plot.png" = some url ∧
      jsEndsWith url "plot.png" = true ∧
      1 ≤ occurrences "/api/graph/".data url.data ∧
      (jsStartsWith "plot.png" "/api/graph/" = true →
        url = if false then "http://localhost:5000" ++ "plot.png" else "plot.png")) :=
  ⟨(getGraphUrl_spec true "").1 rfl,
   (getGraphUrl_spec false "plot.png").2 (by decide)⟩

/-- C9 counterexample: for the filename `a/api/graph/b` the produced URL
contains the `/api/graph/` segment twice, not exactly once. -/
theorem getGraphUrl_once_cex :
    getGraphUrl false "a/api/graph/b" = some "/api/graph/a/api/graph/b" ∧
    occurrences "/api/graph/".data "/api/graph/a/api/graph/b".data = 2 := by
  exact ⟨by decide, by decide⟩

/-- C10: `handleSend` leaves the message list unchanged and makes no
request on empty or whitespace-only input; otherwise it issues one
request, appends the user message followed by one assistant message whose
content is the solve result on success or an error object on failure, and
ends with the loading flag cleared. -/
theorem handleSend_spec {α : Type} (st : ChatState α) (resp : Except (Option String) α)
    (t1 t2 : String) :
    (jsTrim st.input = "" → handleSend st resp t1 t2 = (st, 0)) ∧
    (jsTrim st.input ≠ "" →
      (handleSend st resp t1 t2).2 = 1 ∧
      (handleSend st resp t1 t2).1.loading = false ∧
      ∃ ai : ChatMsg α,
        (handleSend st resp t1 t2).1.messages
          = st.messages ++ [⟨.user, .text st.input, t1⟩, ai] ∧
        ai.role = .assistant ∧
        (∀ r, resp = .ok r → ai.content = .result r) ∧
        (∀ e, resp = .error e →
          ai.content = .errObj (jsOrDefault e "An error occurred. Please try again."))) := by
  constructor
  · intro h
    unfold handleSend
    rw [if_pos h]
  · intro h
    unfold handleSend
    rw [if_neg h]
    cases resp with
    | ok r =>
      refine ⟨rfl, rfl, ⟨.assistant, .result r, t2⟩, rfl, rfl, ?_, ?_⟩
      · intro r' hr
        cases hr
        rfl
      · intro e he
        cases he
    | error e =>
      refine ⟨rfl, rfl,
        ⟨.assistant, .errObj (jsOrDefault e "An error occurred. Please try again."), t2⟩,
        rfl, rfl, ?_, ?_⟩
      · intro r' hr
        cases hr
      · intro e' he
        cases he
        rfl

/-- Witness for C10: a successful solve of a non-blank input. -/
theorem handleSend_spec_witness :
    (@handleSend Nat ⟨[], "2 + 2", true⟩ (Except.ok 4) "t1" "t2").2 = 1 ∧
    (@handleSend Nat ⟨[], "2 + 2", true⟩ (Except.ok 4) "t1" "t2").1.loading = false := by
  have h := (handleSend_spec ⟨[], "2 + 2", true⟩ (Except.ok 4) "t1" "t2").2 (by decide)
  exact ⟨h.1, h.2.1⟩

end MathAI
